import Mathlib

/-!
Verification of the chunked-summarization core of a PDF-summarizer chat bot
(`src/bot.py`). Text is modelled as `List Char`; the external completion
capability is an explicit function argument; exceptions raised by external
calls are modelled with `Except`.
-/

/-! ## Chunker (`chunk_text`, bot.py lines 41-48) -/

/-- One unit of fuel per iteration of the `while start < len(text)` loop in
`chunk_text`.  Each iteration appends `text[start:min(start+max_chars,len)]`
(`take maxChars` of the remaining suffix) and advances `start` to that `end`
(`drop maxChars`).  `none` models non-termination of the Python loop within
the given number of iterations. -/
def chunkTextFuel : Nat → List Char → Nat → Option (List (List Char))
  | _, [], _ => some []
  | 0, _ :: _, _ => none
  | fuel + 1, c :: cs, maxChars =>
    (chunkTextFuel fuel ((c :: cs).drop maxChars) maxChars).map
      (fun rest => (c :: cs).take maxChars :: rest)

/-- `chunk_text(text, max_chars)`: the loop runs at most `len(text)` iterations
whenever `max_chars ≥ 1` (proved in `chunkTextFuel_eq_chunk_text`), so that
much fuel is adequate; for `max_chars = 0` and non-empty text the Python loop
never terminates and the default `[]` is never relied upon by any claim. -/
def chunk_text (text : List Char) (maxChars : Nat) : List (List Char) :=
  (chunkTextFuel text.length text maxChars).getD []

theorem chunk_text_nil (maxChars : Nat) : chunk_text [] maxChars = [] := rfl

/-- With `maxChars ≥ 1`, any fuel of at least `text.length` iterations makes the
loop terminate, with result `chunk_text text maxChars`. -/
theorem chunkTextFuel_eq_chunk_text (maxChars : Nat) (hm : 1 ≤ maxChars) :
    ∀ (fuel : Nat) (text : List Char), text.length ≤ fuel →
      chunkTextFuel fuel text maxChars = some (chunk_text text maxChars) := by
  intro fuel
  induction fuel using Nat.strong_induction_on with
  | _ fuel ih =>
    intro text hlen
    match fuel, text with
    | fuel, [] =>
      cases fuel <;> rfl
    | 0, c :: cs =>
      simp at hlen
    | fuel + 1, c :: cs =>
      have hdrop : ((c :: cs).drop maxChars).length ≤ fuel := by
        simp only [List.length_drop, List.length_cons]
        simp only [List.length_cons] at hlen
        omega
      have hdrop2 : ((c :: cs).drop maxChars).length ≤ cs.length := by
        simp only [List.length_drop, List.length_cons]
        omega
      have h1 := ih fuel (Nat.lt_succ_self fuel) ((c :: cs).drop maxChars) hdrop
      have h2 := ih cs.length (by simp only [List.length_cons] at hlen; omega)
        ((c :: cs).drop maxChars) hdrop2
      show (chunkTextFuel fuel ((c :: cs).drop maxChars) maxChars).map _ = _
      rw [h1]
      have hrhs : chunk_text (c :: cs) maxChars =
          (c :: cs).take maxChars :: chunk_text ((c :: cs).drop maxChars) maxChars := by
        show (chunkTextFuel (c :: cs).length (c :: cs) maxChars).getD [] = _
        have : (c :: cs).length = cs.length + 1 := rfl
        rw [this]
        show ((chunkTextFuel cs.length ((c :: cs).drop maxChars) maxChars).map
          (fun rest => (c :: cs).take maxChars :: rest)).getD [] = _
        rw [h2]
        rfl
      rw [hrhs]
      rfl

/-- Unfolding equation of `chunk_text` on non-empty input, for positive
`maxChars`. -/
theorem chunk_text_cons (text : List Char) (maxChars : Nat)
    (hne : text ≠ []) (hm : 1 ≤ maxChars) :
    chunk_text text maxChars =
      text.take maxChars :: chunk_text (text.drop maxChars) maxChars := by
  match text with
  | [] => exact absurd rfl hne
  | c :: cs =>
    show (chunkTextFuel (c :: cs).length (c :: cs) maxChars).getD [] = _
    have hlc : (c :: cs).length = cs.length + 1 := rfl
    rw [hlc]
    show ((chunkTextFuel cs.length ((c :: cs).drop maxChars) maxChars).map
      (fun rest => (c :: cs).take maxChars :: rest)).getD [] = _
    have hdrop2 : ((c :: cs).drop maxChars).length ≤ cs.length := by
      simp only [List.length_drop, List.length_cons]
      omega
    rw [chunkTextFuel_eq_chunk_text maxChars hm cs.length ((c :: cs).drop maxChars) hdrop2]
    rfl

/-- Induction principle following the recursion pattern of the chunking loop. -/
theorem chunk_text_induction (maxChars : Nat) (hm : 1 ≤ maxChars) (P : List Char → Prop)
    (hnil : P []) (hstep : ∀ text, text ≠ [] → P (text.drop maxChars) → P text) :
    ∀ text, P text := by
  have main : ∀ (n : Nat) (text : List Char), text.length ≤ n → P text := by
    intro n
    induction n with
    | zero =>
      intro text h
      have : text = [] := List.length_eq_zero.mp (Nat.le_zero.mp h)
      rwa [this]
    | succ n ihn =>
      intro text h
      match text with
      | [] => exact hnil
      | c :: cs =>
        refine hstep (c :: cs) (by simp) (ihn _ ?_)
        simp only [List.length_drop, List.length_cons]
        simp only [List.length_cons] at h
        omega
  intro text
  exact main text.length text le_rfl

/-- The fragments concatenate back to the input text. -/
theorem chunk_text_join (maxChars : Nat) (hm : 1 ≤ maxChars) (text : List Char) :
    (chunk_text text maxChars).flatten = text := by
  induction text using chunk_text_induction maxChars hm with
  | hnil => simp [chunk_text_nil]
  | hstep text hne ih =>
    rw [chunk_text_cons text maxChars hne hm]
    simp only [List.flatten_cons, ih, List.take_append_drop]

/-- Every fragment has length at most `maxChars`. -/
theorem chunk_text_length_le (maxChars : Nat) (hm : 1 ≤ maxChars) (text : List Char) :
    ∀ c ∈ chunk_text text maxChars, c.length ≤ maxChars := by
  induction text using chunk_text_induction maxChars hm with
  | hnil => simp [chunk_text_nil]
  | hstep text hne ih =>
    rw [chunk_text_cons text maxChars hne hm]
    intro c hc
    rcases List.mem_cons.mp hc with h | h
    · subst h
      simp only [List.length_take]
      omega
    · exact ih c h

/-- The `i`-th fragment is exactly the slice
`text[i*maxChars : i*maxChars + maxChars]`: fragments are contiguous and
non-overlapping. -/
theorem chunk_text_get (maxChars : Nat) (hm : 1 ≤ maxChars) (text : List Char) :
    ∀ i : Nat, i < (chunk_text text maxChars).length →
      (chunk_text text maxChars)[i]? =
        some ((text.drop (maxChars * i)).take maxChars) := by
  induction text using chunk_text_induction maxChars hm with
  | hnil => simp [chunk_text_nil]
  | hstep text hne ih =>
    intro i hi
    rw [chunk_text_cons text maxChars hne hm] at hi ⊢
    match i with
    | 0 => simp
    | i + 1 =>
      simp only [List.getElem?_cons_succ]
      rw [ih i (by simpa using hi)]
      rw [List.drop_drop]
      congr 3
      ring

/-- Chunking a non-empty text yields at least one fragment. -/
theorem chunk_text_ne_nil (maxChars : Nat) (hm : 1 ≤ maxChars) (text : List Char)
    (hne : text ≠ []) : chunk_text text maxChars ≠ [] := by
  rw [chunk_text_cons text maxChars hne hm]
  simp

/-- Every fragment is non-empty. -/
theorem chunk_text_mem_ne_nil (maxChars : Nat) (hm : 1 ≤ maxChars) (text : List Char) :
    ∀ c ∈ chunk_text text maxChars, c ≠ [] := by
  induction text using chunk_text_induction maxChars hm with
  | hnil => simp [chunk_text_nil]
  | hstep text hne ih =>
    rw [chunk_text_cons text maxChars hne hm]
    intro c hc
    rcases List.mem_cons.mp hc with h | h
    · subst h
      have hlen : 1 ≤ text.length := List.length_pos.mpr hne
      have : (text.take maxChars).length = min maxChars text.length :=
        List.length_take maxChars text
      intro hcontra
      rw [hcontra] at this
      simp only [List.length_nil] at this
      omega
    · exact ih c h

/-- Every fragment except possibly the last has length exactly `maxChars`. -/
theorem chunk_text_dropLast_length (maxChars : Nat) (hm : 1 ≤ maxChars) (text : List Char) :
    ∀ c ∈ (chunk_text text maxChars).dropLast, c.length = maxChars := by
  induction text using chunk_text_induction maxChars hm with
  | hnil => simp [chunk_text_nil]
  | hstep text hne ih =>
    rw [chunk_text_cons text maxChars hne hm]
    by_cases hrest : text.drop maxChars = []
    · rw [hrest, chunk_text_nil]
      simp
    · have hrne : chunk_text (text.drop maxChars) maxChars ≠ [] :=
        chunk_text_ne_nil maxChars hm (text.drop maxChars) hrest
      rw [List.dropLast_cons_of_ne_nil hrne]
      intro c hc
      rcases List.mem_cons.mp hc with h | h
      · subst h
        have hlong : maxChars < text.length := by
          have := List.length_drop maxChars text
          have hpos : 0 < (text.drop maxChars).length := List.length_pos.mpr hrest
          omega
        simp only [List.length_take]
        omega
      · exact ih c h

/-- The number of fragments is `⌈text.length / maxChars⌉`. -/
theorem chunk_text_count (maxChars : Nat) (hm : 1 ≤ maxChars) (text : List Char) :
    (chunk_text text maxChars).length = (text.length + maxChars - 1) / maxChars := by
  induction text using chunk_text_induction maxChars hm with
  | hnil =>
    rw [chunk_text_nil]
    simp only [List.length_nil]
    rw [Nat.div_eq_of_lt (by omega)]
  | hstep text hne ih =>
    rw [chunk_text_cons text maxChars hne hm]
    simp only [List.length_cons, ih, List.length_drop]
    have hlen : 1 ≤ text.length := List.length_pos.mpr hne
    by_cases hcase : text.length ≤ maxChars
    · have h0 : text.length - maxChars = 0 := by omega
      rw [h0]
      rw [Nat.div_eq_of_lt (by omega)]
      have hone : (text.length + maxChars - 1) / maxChars = 1 :=
        Nat.div_eq_of_lt_le (by omega) (by omega)
      omega
    · have heq1 : text.length - maxChars + maxChars - 1 = text.length - 1 := by omega
      have heq2 : text.length + maxChars - 1 = (text.length - 1) + maxChars := by omega
      rw [heq1, heq2, Nat.add_div_right _ (by omega)]

/-! ## Summarization Reducer (`summarize_text`, bot.py lines 50-76)

The external completion capability `client.chat.completions.create` is
modelled as a function from the message list to `Except`: `Except.error e`
models a raised exception (network/API failure), which in Python propagates
out of `summarize_text`.  Every call made is recorded in a trace, in order. -/

/-- A chat message as passed to the completion capability. -/
structure ChatMessage where
  role : List Char
  content : List Char
deriving DecidableEq

/-- The completion capability: message list in, summary text or a raised
exception out. -/
def Complete : Type := List ChatMessage → Except (List Char) (List Char)

/-- Python's `str.isspace()` on one character: the Unicode whitespace set
that `str.strip()` removes — U+0009..U+000D (tab, LF, vertical tab, form
feed, CR), U+001C..U+001F, space, U+0085 (NEL), U+00A0 (NBSP), U+1680,
U+2000..U+200A, U+2028, U+2029, U+202F, U+205F and U+3000. -/
def pyIsSpace (c : Char) : Bool :=
  (9 ≤ c.toNat && c.toNat ≤ 13) ||
  (28 ≤ c.toNat && c.toNat ≤ 31) ||
  c.toNat == 32 || c.toNat == 133 || c.toNat == 160 || c.toNat == 5760 ||
  (8192 ≤ c.toNat && c.toNat ≤ 8202) ||
  c.toNat == 8232 || c.toNat == 8233 || c.toNat == 8239 ||
  c.toNat == 8287 || c.toNat == 12288

/-- Python's `str.strip()`: remove leading and trailing whitespace
(`pyIsSpace` characters). -/
def stripChars (s : List Char) : List Char :=
  ((s.dropWhile pyIsSpace).reverse.dropWhile pyIsSpace).reverse

/-- `"خطا: کلید OPENAI_API_KEY تنظیم نشده است."` (bot.py line 52): returned
when the OpenAI client is unconfigured. -/
def configErrorMsg : List Char :=
  "خطا: کلید OPENAI_API_KEY تنظیم نشده است.".toList

/-- The message list of a per-fragment completion call (bot.py lines 59-62). -/
def fragmentMessages (ch : List Char) : List ChatMessage :=
  [⟨"system".toList, "تو یک خلاصه‌ساز دقیق و منظم هستی.".toList⟩,
   ⟨"user".toList, "این بخش از متن را خلاصه کن:\n\n".toList ++ ch⟩]

/-- The separator joining the per-fragment summaries (bot.py line 67). -/
def separator : List Char := "\n\n---\n\n".toList

/-- The message list of the final reduction call (bot.py lines 70-73). -/
def finalMessages (finalInput : List Char) : List ChatMessage :=
  [⟨"system".toList, "خلاصه‌ی نهایی و منسجم با تیترهای کوتاه تولید کن.".toList⟩,
   ⟨"user".toList,
    "این خلاصه‌های بخش‌بندی‌شده را به یک خلاصه‌ی نهایی تبدیل کن:\n\n".toList ++ finalInput⟩]

/-- The per-fragment loop (bot.py lines 55-65): one completion call per
fragment, collecting the stripped results in order; an exception aborts the
loop.  Returns the outcome and the trace of calls actually made. -/
def runFragments (complete : Complete) :
    List (List Char) → Except (List Char) (List (List Char)) × List (List ChatMessage)
  | [] => (Except.ok [], [])
  | ch :: rest =>
    match complete (fragmentMessages ch) with
    | Except.error e => (Except.error e, [fragmentMessages ch])
    | Except.ok content =>
      let rc := runFragments complete rest
      (rc.1.map (fun tail => stripChars content :: tail), fragmentMessages ch :: rc.2)

/-- `summarize_text` (bot.py lines 50-76).  `clientConfigured` models
`client` being non-`None`; the returned trace lists every completion call
made, in order.  An `Except.error` outcome models an exception propagating
to the caller. -/
def summarize_text (clientConfigured : Bool) (complete : Complete) (text : List Char) :
    Except (List Char) (List Char) × List (List ChatMessage) :=
  if !clientConfigured then (Except.ok configErrorMsg, [])
  else
    let rc := runFragments complete (chunk_text text 10000)
    match rc.1 with
    | Except.error e => (Except.error e, rc.2)
    | Except.ok parts =>
      let finalInput := List.intercalate separator parts
      match complete (finalMessages finalInput) with
      | Except.error e => (Except.error e, rc.2 ++ [finalMessages finalInput])
      | Except.ok content =>
        (Except.ok (stripChars content), rc.2 ++ [finalMessages finalInput])

/-- On an everywhere-successful capability, the per-fragment loop returns one
stripped summary per fragment, and the trace is one call per fragment, both
in fragment order. -/
theorem runFragments_ok (f : List ChatMessage → List Char) :
    ∀ chunks : List (List Char),
      runFragments (fun m => Except.ok (f m)) chunks =
        (Except.ok (chunks.map (fun ch => stripChars (f (fragmentMessages ch)))),
         chunks.map fragmentMessages) := by
  intro chunks
  induction chunks with
  | nil => rfl
  | cons ch rest ih =>
    show (match Except.ok (f (fragmentMessages ch)) with
      | Except.error e => (Except.error e, [fragmentMessages ch])
      | Except.ok content =>
        let rc := runFragments (fun m => Except.ok (f m)) rest
        (rc.1.map (fun tail => stripChars content :: tail),
         fragmentMessages ch :: rc.2)) = _
    rw [ih]
    rfl

/-- On an everywhere-successful capability, `summarize_text` with a configured
client: partial summaries are the stripped per-fragment results in order, the
final reduction consumes them joined in order, and the trace is one call per
fragment followed by the single final call. -/
theorem summarize_text_ok (f : List ChatMessage → List Char) (text : List Char) :
    summarize_text true (fun m => Except.ok (f m)) text =
      (Except.ok (stripChars (f (finalMessages (List.intercalate separator
         ((chunk_text text 10000).map (fun ch => stripChars (f (fragmentMessages ch)))))))),
       (chunk_text text 10000).map fragmentMessages ++
         [finalMessages (List.intercalate separator
           ((chunk_text text 10000).map (fun ch => stripChars (f (fragmentMessages ch)))))]) := by
  show (let rc := runFragments (fun m => Except.ok (f m)) (chunk_text text 10000)
    match rc.1 with
    | Except.error e => (Except.error e, rc.2)
    | Except.ok parts =>
      let finalInput := List.intercalate separator parts
      match (fun (m : List ChatMessage) => Except.ok (α := List Char) (f m))
          (finalMessages finalInput) with
      | Except.error e => (Except.error e, rc.2 ++ [finalMessages finalInput])
      | Except.ok content =>
        (Except.ok (stripChars content), rc.2 ++ [finalMessages finalInput])) = _
  rw [runFragments_ok f (chunk_text text 10000)]

/-! ## Request Handler (`handle_document`, bot.py lines 93-114)

The Telegram/network collaborators are modelled as `Except`-valued fields of
an environment: `Except.error e` models a raised exception, which the
`try/except` at the handler boundary converts into the generic error reply
`"خطا: " + str(e)`.  The result records the replies sent, in order, and how
many times each downstream component was invoked. -/

/-- The inbound document as used by `handle_document`. -/
structure TgDocument where
  mime_type : List Char
  file_id : List Char
  file_name : Option (List Char)
deriving DecidableEq

/-- The external collaborators of one request. -/
structure BotEnv where
  clientConfigured : Bool
  complete : Complete
  getFile : Except (List Char) (List Char)
  download : List Char → Except (List Char) Unit
  extract : Except (List Char) (List Char)

/-- What one `handle_document` run did: replies sent in order, number of
Retriever (`download_file`) calls, Extractor (`extract_text`) calls, Reducer
(`summarize_text`) calls, and the completion calls made by the Reducer. -/
structure HandlerResult where
  replies : List (List Char)
  retrieverCalls : Nat
  extractorCalls : Nat
  reducerCalls : Nat
  completionCalls : List (List ChatMessage)
deriving DecidableEq

/-- `"لطفاً فقط فایل PDF ارسال کن."` (bot.py line 97). -/
def pdfGuidanceMsg : List Char := "لطفاً فقط فایل PDF ارسال کن.".toList

/-- `"فایل دریافت شد. در حال پردازش..."` (bot.py line 102). -/
def receivedMsg : List Char := "فایل دریافت شد. در حال پردازش...".toList

/-- `"متن قابل استخراج پیدا نشد."` (bot.py line 108). -/
def noTextMsg : List Char := "متن قابل استخراج پیدا نشد.".toList

/-- `"خطا: "`, the prefix of the generic error reply (bot.py line 114). -/
def genericErrorPrefix : List Char := "خطا: ".toList

/-- `"application/pdf"` (bot.py line 96). -/
def pdfMime : List Char := "application/pdf".toList

/-- `handle_document` (bot.py lines 93-114). -/
def handle_document (document : Option TgDocument) (env : BotEnv) : HandlerResult :=
  match document with
  | none => ⟨[pdfGuidanceMsg], 0, 0, 0, []⟩
  | some doc =>
    if doc.mime_type ≠ pdfMime then ⟨[pdfGuidanceMsg], 0, 0, 0, []⟩
    else
      match env.getFile with
      | Except.error e => ⟨[genericErrorPrefix ++ e], 0, 0, 0, []⟩
      | Except.ok fileUrl =>
        match env.download fileUrl with
        | Except.error e => ⟨[receivedMsg, genericErrorPrefix ++ e], 1, 0, 0, []⟩
        | Except.ok _ =>
          match env.extract with
          | Except.error e => ⟨[receivedMsg, genericErrorPrefix ++ e], 1, 1, 0, []⟩
          | Except.ok text =>
            if stripChars text = [] then ⟨[receivedMsg, noTextMsg], 1, 1, 0, []⟩
            else
              match summarize_text env.clientConfigured env.complete text with
              | (Except.error e, calls) =>
                ⟨[receivedMsg, genericErrorPrefix ++ e], 1, 1, 1, calls⟩
              | (Except.ok summary, calls) =>
                ⟨[receivedMsg, summary], 1, 1, 1, calls⟩

/-! ## Claims -/

/-- C1: for every input Text and every positive `max_chars`, `chunk_text`
produces an ordered sequence of Fragments that are contiguous and
non-overlapping (the `i`-th fragment is exactly the slice of the input
starting at `i * max_chars`), whose concatenation equals the input Text
exactly, and every Fragment's length is at most `max_chars` (including the
last). -/
theorem C1_chunker_partition (text : List Char) (maxChars : Nat) (hm : 1 ≤ maxChars) :
    (chunk_text text maxChars).flatten = text ∧
    (∀ c ∈ chunk_text text maxChars, c.length ≤ maxChars) ∧
    (∀ i : Nat, i < (chunk_text text maxChars).length →
      (chunk_text text maxChars)[i]? =
        some ((text.drop (maxChars * i)).take maxChars)) :=
  ⟨chunk_text_join maxChars hm text, chunk_text_length_le maxChars hm text,
   chunk_text_get maxChars hm text⟩

theorem C1_chunker_partition_witness :
    (1 : Nat) ≤ 2 ∧
    ((chunk_text "abc".toList 2).flatten = "abc".toList ∧
     (∀ c ∈ chunk_text "abc".toList 2, c.length ≤ 2) ∧
     (∀ i : Nat, i < (chunk_text "abc".toList 2).length →
       (chunk_text "abc".toList 2)[i]? =
         some (("abc".toList.drop (2 * i)).take 2))) :=
  ⟨by decide, C1_chunker_partition "abc".toList 2 (by decide)⟩

/-- C2 as stated is false on the code at the empty Text: there `max_chars = 1
≥ 0 = length(Text)`, yet `chunk_text` produces the empty sequence of
fragments, not exactly one fragment equal to the (empty) whole Text. -/
theorem C2_counterexample :
    ([] : List Char).length ≤ 1 ∧ chunk_text [] 1 ≠ [([] : List Char)] := by
  decide

/-- C2 (amended): for every non-empty Text with `max_chars ≥ length(Text)`,
`chunk_text` produces exactly one Fragment equal to the whole Text (for the
empty Text it produces the empty sequence, per C3). -/
theorem C2_single_fragment (text : List Char) (maxChars : Nat)
    (hne : text ≠ []) (hge : text.length ≤ maxChars) :
    chunk_text text maxChars = [text] := by
  have hm : 1 ≤ maxChars := le_trans (List.length_pos.mpr hne) hge
  rw [chunk_text_cons text maxChars hne hm, List.take_of_length_le hge,
      List.drop_eq_nil_of_le hge, chunk_text_nil]

theorem C2_single_fragment_witness :
    ("a".toList ≠ [] ∧ ("a".toList).length ≤ 3) ∧ chunk_text "a".toList 3 = ["a".toList] :=
  ⟨⟨by decide, by decide⟩, C2_single_fragment "a".toList 3 (by decide) (by decide)⟩

/-- C3: for the empty Text and every positive `max_chars`, `chunk_text`
produces an empty sequence of Fragments. -/
theorem C3_empty_text (maxChars : Nat) (_hm : 1 ≤ maxChars) :
    chunk_text [] maxChars = [] :=
  chunk_text_nil maxChars

theorem C3_empty_text_witness : (1 : Nat) ≤ 7 ∧ chunk_text [] 7 = [] :=
  ⟨by decide, C3_empty_text 7 (by decide)⟩

/-- C9: for every Text and `max_chars ≥ 1` the chunking loop terminates
within `length(text)` iterations (each iteration strictly advances `start`),
with result `chunk_text`; positivity of `max_chars` is necessary: with
`max_chars = 0` and a non-empty Text the loop makes no progress and no
amount of fuel suffices. -/
theorem C9_termination :
    (∀ (text : List Char) (maxChars : Nat), 1 ≤ maxChars →
      chunkTextFuel text.length text maxChars = some (chunk_text text maxChars)) ∧
    (∀ (fuel : Nat) (text : List Char), text ≠ [] → chunkTextFuel fuel text 0 = none) := by
  constructor
  · intro text maxChars hm
    exact chunkTextFuel_eq_chunk_text maxChars hm text.length text le_rfl
  · intro fuel
    induction fuel with
    | zero =>
      intro text hne
      match text with
      | c :: cs => rfl
    | succ n ih =>
      intro text hne
      match text with
      | c :: cs =>
        show (chunkTextFuel n ((c :: cs).drop 0) 0).map _ = none
        rw [List.drop_zero, ih (c :: cs) (by simp)]
        rfl

theorem C9_termination_witness :
    chunkTextFuel ("ab".toList).length "ab".toList 1 = some (chunk_text "ab".toList 1) ∧
    chunkTextFuel 5 "a".toList 0 = none :=
  ⟨C9_termination.1 "ab".toList 1 (by decide), C9_termination.2 5 "a".toList (by decide)⟩

/-- C10: for every non-empty Text and positive `max_chars`, every fragment
except possibly the last has length exactly `max_chars`, every fragment is
non-empty, and the number of fragments is `⌈length(text) / max_chars⌉`
(computed as `(length + max_chars - 1) / max_chars`). -/
theorem C10_fragment_sizes (text : List Char) (maxChars : Nat)
    (_hne : text ≠ []) (hm : 1 ≤ maxChars) :
    (∀ c ∈ (chunk_text text maxChars).dropLast, c.length = maxChars) ∧
    (∀ c ∈ chunk_text text maxChars, c ≠ []) ∧
    (chunk_text text maxChars).length = (text.length + maxChars - 1) / maxChars :=
  ⟨chunk_text_dropLast_length maxChars hm text, chunk_text_mem_ne_nil maxChars hm text,
   chunk_text_count maxChars hm text⟩

theorem C10_fragment_sizes_witness :
    ("abcde".toList ≠ [] ∧ (1 : Nat) ≤ 2) ∧
    ((∀ c ∈ (chunk_text "abcde".toList 2).dropLast, c.length = 2) ∧
     (∀ c ∈ chunk_text "abcde".toList 2, c ≠ []) ∧
     (chunk_text "abcde".toList 2).length = (("abcde".toList).length + 2 - 1) / 2) :=
  ⟨⟨by decide, by decide⟩, C10_fragment_sizes "abcde".toList 2 (by decide) (by decide)⟩

/-- C5: for every sequence of Fragments and every (successful) completion
capability, the per-fragment loop of `summarize_text` produces exactly one
Partial Summary per input Fragment, in the same order (the result is the
`map` of the per-fragment call over the fragments), and `summarize_text`
feeds exactly those Partial Summaries, joined in fragment order, to the
final reduction call. -/
theorem C5_one_summary_per_fragment (f : List ChatMessage → List Char)
    (chunks : List (List Char)) (text : List Char) :
    (runFragments (fun m => Except.ok (f m)) chunks).1 =
      Except.ok (chunks.map (fun ch => stripChars (f (fragmentMessages ch)))) ∧
    (chunks.map (fun ch => stripChars (f (fragmentMessages ch)))).length = chunks.length ∧
    (runFragments (fun m => Except.ok (f m)) chunks).2 = chunks.map fragmentMessages ∧
    (summarize_text true (fun m => Except.ok (f m)) text).2 =
      (chunk_text text 10000).map fragmentMessages ++
        [finalMessages (List.intercalate separator
          ((chunk_text text 10000).map (fun ch => stripChars (f (fragmentMessages ch)))))] := by
  refine ⟨?_, List.length_map chunks _, ?_, ?_⟩
  · rw [runFragments_ok]
  · rw [runFragments_ok]
  · rw [summarize_text_ok]

/-- C6: with the completion capability unconfigured (`client is None`),
`summarize_text` returns the specific configuration-error message and makes
no completion call at all; this outcome (a normally returned message) is a
distinct kind from a mid-call completion failure (a propagating exception,
modelled `Except.error`). -/
theorem C6_unconfigured_client (complete : Complete) (text : List Char) (e : List Char) :
    summarize_text false complete text = (Except.ok configErrorMsg, []) ∧
    (summarize_text true (fun _ => Except.error e) text).1 = Except.error e ∧
    (Except.error e : Except (List Char) (List Char)) ≠ Except.ok configErrorMsg := by
  refine ⟨rfl, ?_, by simp⟩
  cases hch : chunk_text text 10000 with
  | nil =>
    simp only [summarize_text, hch, runFragments, Bool.not_true, Bool.false_eq_true,
      if_false]
  | cons ch rest =>
    simp only [summarize_text, hch, runFragments, Bool.not_true, Bool.false_eq_true,
      if_false]

/-- C4 (end-to-end scenario A): for a Text of exactly 25,000 characters and
`max_chars = 10,000`, `chunk_text` produces exactly 3 Fragments of sizes
10,000 / 10,000 / 5,000 in order, and `summarize_text` invokes the
completion capability exactly 4 times: once per Fragment in fragment order,
then once for the final reduction. -/
theorem C4_scenario_a (text : List Char) (h : text.length = 25000)
    (f : List ChatMessage → List Char) :
    (chunk_text text 10000).map List.length = [10000, 10000, 5000] ∧
    (summarize_text true (fun m => Except.ok (f m)) text).2 =
      (chunk_text text 10000).map fragmentMessages ++
        [finalMessages (List.intercalate separator
          ((chunk_text text 10000).map (fun ch => stripChars (f (fragmentMessages ch)))))] ∧
    (summarize_text true (fun m => Except.ok (f m)) text).2.length = 4 := by
  have h10 : (1 : Nat) ≤ 10000 := by norm_num
  have hne : text ≠ [] := by
    intro hc
    rw [hc] at h
    simp at h
  have hd1 : (text.drop 10000).length = 15000 := by
    simp [List.length_drop, h]
  have hne1 : text.drop 10000 ≠ [] := by
    intro hc
    rw [hc] at hd1
    simp at hd1
  have hd2 : ((text.drop 10000).drop 10000).length = 5000 := by
    simp [List.length_drop, h]
  have hne2 : (text.drop 10000).drop 10000 ≠ [] := by
    intro hc
    rw [hc] at hd2
    simp at hd2
  have hd3 : ((text.drop 10000).drop 10000).drop 10000 = [] := by
    have : (((text.drop 10000).drop 10000).drop 10000).length = 0 := by
      simp [List.length_drop, h]
    exact List.length_eq_zero.mp this
  have hchunks : chunk_text text 10000 =
      [text.take 10000, (text.drop 10000).take 10000,
       ((text.drop 10000).drop 10000).take 10000] := by
    rw [chunk_text_cons text 10000 hne h10,
        chunk_text_cons (text.drop 10000) 10000 hne1 h10,
        chunk_text_cons ((text.drop 10000).drop 10000) 10000 hne2 h10,
        hd3, chunk_text_nil]
  refine ⟨?_, ?_, ?_⟩
  · rw [hchunks]
    simp only [List.map_cons, List.map_nil, List.length_take, List.length_drop, h]
    norm_num
  · rw [summarize_text_ok]
  · rw [summarize_text_ok, hchunks]
    simp

theorem C4_scenario_a_witness :
    (List.replicate 25000 'a').length = 25000 ∧
    (chunk_text (List.replicate 25000 'a') 10000).map List.length = [10000, 10000, 5000] ∧
    (summarize_text true (fun _ => Except.ok []) (List.replicate 25000 'a')).2.length = 4 := by
  have h := C4_scenario_a (List.replicate 25000 'a') (by rw [List.length_replicate]) (fun _ => [])
  exact ⟨by rw [List.length_replicate], h.1, h.2.2⟩

/-- C7 (end-to-end scenario C): for an inbound event carrying a valid PDF
whose extracted text is empty or whitespace-only, `handle_document` replies
with the "no extractable text" notice (after the "received" notice) and
never invokes the Reducer: zero `summarize_text` calls and zero completion
calls. -/
theorem C7_no_extractable_text (doc : TgDocument) (env : BotEnv)
    (fileUrl text : List Char)
    (hmime : doc.mime_type = pdfMime)
    (hfile : env.getFile = Except.ok fileUrl)
    (hdl : env.download fileUrl = Except.ok ())
    (hext : env.extract = Except.ok text)
    (hblank : stripChars text = []) :
    handle_document (some doc) env = ⟨[receivedMsg, noTextMsg], 1, 1, 0, []⟩ := by
  simp only [handle_document, hmime, ne_eq, not_true_eq_false, if_false, hfile, hdl,
    hext, hblank, if_true]

theorem C7_no_extractable_text_witness :
    handle_document (some ⟨pdfMime, [], none⟩)
      ⟨true, fun _ => Except.ok [], Except.ok [], fun _ => Except.ok (),
       Except.ok [' ', '\x0c', '\n']⟩ =
      ⟨[receivedMsg, noTextMsg], 1, 1, 0, []⟩ :=
  C7_no_extractable_text ⟨pdfMime, [], none⟩
    ⟨true, fun _ => Except.ok [], Except.ok [], fun _ => Except.ok (),
     Except.ok [' ', '\x0c', '\n']⟩
    [] [' ', '\x0c', '\n'] rfl rfl rfl rfl (by decide)

/-- C8 (end-to-end scenario B): for an inbound event whose declared media
type is not PDF, or that carries no document, `handle_document` replies with
the "please send a PDF" guidance message only, and performs zero Retriever,
Extractor and Reducer calls (and no completion calls). -/
theorem C8_non_pdf_guidance (env : BotEnv) (doc : TgDocument)
    (hmime : doc.mime_type ≠ pdfMime) :
    handle_document none env = ⟨[pdfGuidanceMsg], 0, 0, 0, []⟩ ∧
    handle_document (some doc) env = ⟨[pdfGuidanceMsg], 0, 0, 0, []⟩ := by
  refine ⟨rfl, ?_⟩
  simp only [handle_document, hmime, ne_eq, not_false_eq_true, if_true]

theorem C8_non_pdf_guidance_witness :
    ("text/plain".toList ≠ pdfMime) ∧
    (handle_document none
        ⟨true, fun _ => Except.ok [], Except.ok [], fun _ => Except.ok (), Except.ok []⟩ =
        ⟨[pdfGuidanceMsg], 0, 0, 0, []⟩ ∧
     handle_document (some ⟨"text/plain".toList, [], none⟩)
        ⟨true, fun _ => Except.ok [], Except.ok [], fun _ => Except.ok (), Except.ok []⟩ =
        ⟨[pdfGuidanceMsg], 0, 0, 0, []⟩) :=
  ⟨by decide,
   C8_non_pdf_guidance
     ⟨true, fun _ => Except.ok [], Except.ok [], fun _ => Except.ok (), Except.ok []⟩
     ⟨"text/plain".toList, [], none⟩ (by decide)⟩
